import Mathlib

/-!
Shallow embedding of the PLX-file reading sample
`MEX_Code/PlexonSplit/HowToReadPlxFiles/PlxReadProject/plxread.cpp`.

The byte source is modelled as a list of 16-bit little-endian words: every
scalar the reader touches is either a 16-bit `short` or a 32-bit `long`
occupying two adjacent words, and every `fread` in the sample advances the
cursor by a multiple of two bytes, so a word-level stream is byte-faithful.
Signed C values are recovered from raw words by explicit two's-complement
reinterpretation.
-/

namespace Plx

/-- Two's-complement value of a 16-bit word, as the C `short` obtained by
overlaying the bytes (`fread` into a struct field). -/
def toSigned16 (w : Nat) : Int :=
  if w % 65536 < 32768 then ((w % 65536 : Nat) : Int)
  else ((w % 65536 : Nat) : Int) - 65536

/-- Two's-complement value of a 32-bit quantity, as the C `long` obtained by
overlaying the bytes. -/
def toSigned32 (w : Nat) : Int :=
  if w % 4294967296 < 2147483648 then ((w % 4294967296 : Nat) : Int)
  else ((w % 4294967296 : Nat) : Int) - 4294967296

/-- The unsigned 32-bit quantity formed by two adjacent little-endian words
(low word first): the raw bit pattern of the `TimeStamp` field. -/
def lowWordUnsigned (w2 w3 : Nat) : Nat :=
  w2 % 65536 + 65536 * (w3 % 65536)

/-- Block type tag for spike records (`Type = 1` in the in-file format doc). -/
def PL_SingleWFType : Int := 1

/-- Block type tag for external event records (`Type = 4`). -/
def PL_ExtEventType : Int := 4

/-- Block type tag for continuous A/D records (`Type = 5`). -/
def PL_ADDataType : Int := 5

/-- Reserved strobed-event channel id (`PL_StrobedExtChannel (257)` in the
in-file format doc, section 2C.2). -/
def PL_StrobedExtChannel : Int := 257

/-- The `PL_DataBlockHeader` struct of `plxread.cpp` section 2C: all fields
are C `short` except `TimeStamp`, a C `long` (signed 32-bit). -/
structure PL_DataBlockHeader where
  blockType : Int
  upperByteOf5ByteTimestamp : Int
  timeStamp : Int
  channel : Int
  unit : Int
  numberOfWaveforms : Int
  numberOfWordsInWaveform : Int
deriving Repr, DecidableEq

/-- Reading a `PL_DataBlockHeader` by `fread` of 8 little-endian words:
`short Type; short UpperByteOf5ByteTimestamp; long TimeStamp; short Channel;
short Unit; short NumberOfWaveforms; short NumberOfWordsInWaveform`.
The `long TimeStamp` is the signed view of the two words `w2, w3`. -/
def parseBlockHeader (w0 w1 w2 w3 w4 w5 w6 w7 : Nat) : PL_DataBlockHeader :=
  { blockType := toSigned16 w0
    upperByteOf5ByteTimestamp := toSigned16 w1
    timeStamp := toSigned32 (lowWordUnsigned w2 w3)
    channel := toSigned16 w4
    unit := toSigned16 w5
    numberOfWaveforms := toSigned16 w6
    numberOfWordsInWaveform := toSigned16 w7 }

/-- Payload words the sample loop reads after a block header:
`nbuf = 0; if (db.NumberOfWaveforms > 0) nbuf = db.NumberOfWaveforms *
db.NumberOfWordsInWaveform;` followed by `fread(buf, nbuf*2, 1, fp)`.
A negative product would index memory out of bounds in the C (undefined);
the clamp to `0` is never exercised by the theorems below, which assume
nonnegative counts. -/
def payloadWordsRequested (db : PL_DataBlockHeader) : Nat :=
  if 0 < db.numberOfWaveforms then
    (db.numberOfWaveforms * db.numberOfWordsInWaveform).toNat
  else 0

/-- Modelled from the spec: the fixed sizes of the on-disk structures
(`sizeof(PL_FileHeader)`, `sizeof(PL_ChanHeader)`, `sizeof(PL_EventHeader)`,
`sizeof(PL_SlowChannelHeader)`). They are declared in `Plexon.h`, which is
not among this repository's sources; the spec states only that each is a
fixed size, so they are abstract constants here. -/
structure PlxStructSizes where
  fileHeader : Nat
  chanHeader : Nat
  eventHeader : Nat
  slowChannelHeader : Nat

/-- The channel-count fields of `PL_FileHeader` that enter the data-start
computation (`NumDSPChannels`, `NumEventChannels`, `NumSlowChannels`).
A header "with known counts" has nonnegative counts, modelled as `Nat`. -/
structure PL_FileHeaderCounts where
  numDSPChannels : Nat
  numEventChannels : Nat
  numSlowChannels : Nat

/-- `int datastart = sizeof(fh) + fh.NumDSPChannels*sizeof(PL_ChanHeader)
+ fh.NumEventChannels*sizeof(PL_EventHeader)
+ fh.NumSlowChannels*sizeof(PL_SlowChannelHeader);` (plxread.cpp line 195). -/
def datastart (sz : PlxStructSizes) (fh : PL_FileHeaderCounts) : Nat :=
  sz.fileHeader + fh.numDSPChannels * sz.chanHeader
    + fh.numEventChannels * sz.eventHeader
    + fh.numSlowChannels * sz.slowChannelHeader

/-- Claim C1: the data-start offset equals the fixed file-header size plus,
for each of the three channel kinds in declared order (DSP, event, analog),
the declared channel count times that kind's fixed channel-header size; and
for a file laid out as header, then the three channel tables, then the data
blocks, dropping `datastart` bytes lands exactly at the first data block. -/
theorem datastart_locates_blocks
    (sz : PlxStructSizes) (fh : PL_FileHeaderCounts)
    (hdrBytes dspBytes evBytes slowBytes blocks : List Nat)
    (hh : hdrBytes.length = sz.fileHeader)
    (hd : dspBytes.length = fh.numDSPChannels * sz.chanHeader)
    (he : evBytes.length = fh.numEventChannels * sz.eventHeader)
    (hs : slowBytes.length = fh.numSlowChannels * sz.slowChannelHeader) :
    datastart sz fh
        = sz.fileHeader + (fh.numDSPChannels * sz.chanHeader
            + fh.numEventChannels * sz.eventHeader
            + fh.numSlowChannels * sz.slowChannelHeader)
    ∧ (((((hdrBytes ++ dspBytes) ++ evBytes) ++ slowBytes) ++ blocks).drop
          (datastart sz fh)) = blocks := by
  constructor
  · unfold datastart; ring
  · have hlen : (((hdrBytes ++ dspBytes) ++ evBytes) ++ slowBytes).length
        = datastart sz fh := by
      simp [List.length_append, hh, hd, he, hs, datastart]
      ring
    exact List.drop_left' hlen

/-- Claim C1, witness: a tiny synthetic layout (header 2 bytes, one DSP
header of 1 byte, two event headers of 1 byte, one analog header of 1 byte)
whose data blocks start at offset `datastart`. -/
theorem datastart_locates_blocks_witness :
    datastart ⟨2, 1, 1, 1⟩ ⟨1, 2, 1⟩ = 2 + (1 * 1 + 2 * 1 + 1 * 1)
    ∧ ((((([0, 0] ++ [10]) ++ [20, 21]) ++ [30]) ++ [9, 9]).drop
          (datastart ⟨2, 1, 1, 1⟩ ⟨1, 2, 1⟩)) = [9, 9] :=
  datastart_locates_blocks ⟨2, 1, 1, 1⟩ ⟨1, 2, 1⟩
    [0, 0] [10] [20, 21] [30] [9, 9] rfl rfl rfl rfl

/-- The spec's composed 40-bit timestamp, written from the spec's words:
`(high << 32) | lowUnsigned`, which for `lowUnsigned < 2^32` equals
`high * 2^32 + lowUnsigned`. -/
def spec40BitTimestamp (high : Int) (low : Nat) : Int :=
  high * 4294967296 + low

/-- Claim C2, counterexample: a block whose raw low timestamp word is
`2^31` (words `w2 = 0`, `w3 = 32768`) and whose high byte is `1` decodes to
a negative `TimeStamp` (`-2^31`), not to the composed 40-bit unsigned value
`(1 << 32) | 2^31`: the code keeps the C `long` sign and never combines the
upper byte. -/
theorem timeStamp_not_40bit_counterexample :
    (parseBlockHeader 0 1 0 32768 0 0 0 0).timeStamp
        ≠ spec40BitTimestamp
            (parseBlockHeader 0 1 0 32768 0 0 0 0).upperByteOf5ByteTimestamp
            (lowWordUnsigned 0 32768)
    ∧ (parseBlockHeader 0 1 0 32768 0 0 0 0).timeStamp < 0 := by
  decide

/-- Claim C2, amended: the decoder exposes as a record's timestamp only the
low 32-bit word, reinterpreted as a signed 32-bit value; the high byte is
parsed but never combined into it. Consequently the exposed timestamp equals
the unsigned low word exactly when that word is below `2^31`, and is
negative (sign wraparound) whenever the low word is `2^31` or more. -/
theorem timeStamp_is_signed_low_word (w0 w1 w2 w3 w4 w5 w6 w7 : Nat) :
    (parseBlockHeader w0 w1 w2 w3 w4 w5 w6 w7).timeStamp
        = toSigned32 (lowWordUnsigned w2 w3)
    ∧ (lowWordUnsigned w2 w3 < 2147483648 →
        (parseBlockHeader w0 w1 w2 w3 w4 w5 w6 w7).timeStamp
          = ((lowWordUnsigned w2 w3 : Nat) : Int))
    ∧ (2147483648 ≤ lowWordUnsigned w2 w3 →
        (parseBlockHeader w0 w1 w2 w3 w4 w5 w6 w7).timeStamp < 0) := by
  have hlow : lowWordUnsigned w2 w3 < 4294967296 := by
    have h2 := Nat.mod_lt w2 (show 0 < 65536 by norm_num)
    have h3 := Nat.mod_lt w3 (show 0 < 65536 by norm_num)
    unfold lowWordUnsigned
    omega
  refine ⟨rfl, ?_, ?_⟩
  · intro h
    show toSigned32 (lowWordUnsigned w2 w3) = _
    unfold toSigned32
    rw [Nat.mod_eq_of_lt hlow, if_pos h]
  · intro h
    show toSigned32 (lowWordUnsigned w2 w3) < 0
    unfold toSigned32
    rw [Nat.mod_eq_of_lt hlow, if_neg (by omega)]
    omega

/-- Claim C2 (amended), witness: a low word of `2^31` yields a negative
decoded timestamp. -/
theorem timeStamp_is_signed_low_word_witness :
    2147483648 ≤ lowWordUnsigned 0 32768
    ∧ (parseBlockHeader 0 1 0 32768 0 0 0 0).timeStamp < 0 :=
  ⟨by decide,
    (timeStamp_is_signed_low_word 0 1 0 32768 0 0 0 0).2.2 (by decide)⟩

/-- A raw block as seen by the sample loop: the parsed header plus the
signed 16-bit samples actually read into `buf` after it. -/
structure RawBlock where
  header : PL_DataBlockHeader
  payload : List Int
deriving Repr, DecidableEq

/-- One pass of the sample's reading loop
`while (feof(fp) == 0 && fread(&db, sizeof(db), 1, fp) == 1) { nbuf = 0;
if (db.NumberOfWaveforms > 0) { nbuf = ...; fread(buf, nbuf*2, 1, fp); } ... }`
over a word stream, with explicit fuel for structural recursion (the fuel is
set to the stream length by `readBlocks`, which always suffices because each
iteration consumes at least the 8-word header).
A header `fread` that cannot complete returns 0 and ends the loop; a payload
`fread` that cannot complete still fills `buf` with the words that remain,
sets the EOF flag, and — its return value being unchecked — the current
block is still processed before the loop ends. -/
def readBlocksFuel : Nat → List Nat → List RawBlock
  | 0, _ => []
  | fuel + 1, w0 :: w1 :: w2 :: w3 :: w4 :: w5 :: w6 :: w7 :: rest =>
      let db := parseBlockHeader w0 w1 w2 w3 w4 w5 w6 w7
      let req := payloadWordsRequested db
      if req ≤ rest.length then
        { header := db, payload := (rest.take req).map toSigned16 }
          :: readBlocksFuel fuel (rest.drop req)
      else
        [{ header := db, payload := (rest.take req).map toSigned16 }]
  | _ + 1, _ => []

/-- One full pass of the sample's reading loop over a word stream. -/
def readBlocks (ws : List Nat) : List RawBlock :=
  readBlocksFuel ws.length ws

lemma readBlocksFuel_nil (f : Nat) : readBlocksFuel f [] = [] := by
  cases f <;> rfl

lemma readBlocksFuel_short (f : Nat) (ws : List Nat) (h : ws.length < 8) :
    readBlocksFuel f ws = [] := by
  cases f with
  | zero => rfl
  | succ f =>
    rcases ws with _ | ⟨a, _ | ⟨b, _ | ⟨c, _ | ⟨d, _ | ⟨e, _ | ⟨g, _ | ⟨i,
      _ | ⟨j, rest⟩⟩⟩⟩⟩⟩⟩⟩
    · rfl
    · rfl
    · rfl
    · rfl
    · rfl
    · rfl
    · rfl
    · rfl
    · exfalso
      simp only [List.length_cons] at h
      omega

lemma readBlocksFuel_cons (fuel w0 w1 w2 w3 w4 w5 w6 w7 : Nat)
    (rest : List Nat) :
    readBlocksFuel (fuel + 1) (w0 :: w1 :: w2 :: w3 :: w4 :: w5 :: w6 :: w7 :: rest)
      = if payloadWordsRequested (parseBlockHeader w0 w1 w2 w3 w4 w5 w6 w7)
            ≤ rest.length then
          { header := parseBlockHeader w0 w1 w2 w3 w4 w5 w6 w7,
            payload := (rest.take (payloadWordsRequested
                (parseBlockHeader w0 w1 w2 w3 w4 w5 w6 w7))).map toSigned16 }
            :: readBlocksFuel fuel (rest.drop (payloadWordsRequested
                (parseBlockHeader w0 w1 w2 w3 w4 w5 w6 w7)))
        else
          [{ header := parseBlockHeader w0 w1 w2 w3 w4 w5 w6 w7,
             payload := (rest.take (payloadWordsRequested
                 (parseBlockHeader w0 w1 w2 w3 w4 w5 w6 w7))).map toSigned16 }] :=
  rfl

lemma readBlocksFuel_congr : ∀ (f g : Nat) (ws : List Nat),
    ws.length ≤ f → ws.length ≤ g → readBlocksFuel f ws = readBlocksFuel g ws := by
  intro f
  induction f with
  | zero =>
    intro g ws hf _
    have hnil : ws = [] := List.eq_nil_of_length_eq_zero (Nat.le_zero.mp hf)
    subst hnil
    rw [readBlocksFuel_nil, readBlocksFuel_nil]
  | succ f ih =>
    intro g ws hf hg
    by_cases hlen : ws.length < 8
    · rw [readBlocksFuel_short _ _ hlen, readBlocksFuel_short _ _ hlen]
    · rcases ws with _ | ⟨w0, _ | ⟨w1, _ | ⟨w2, _ | ⟨w3, _ | ⟨w4, _ | ⟨w5,
        _ | ⟨w6, _ | ⟨w7, rest⟩⟩⟩⟩⟩⟩⟩⟩
      · exact absurd (by simp) hlen
      · exact absurd (by simp) hlen
      · exact absurd (by simp) hlen
      · exact absurd (by simp) hlen
      · exact absurd (by simp) hlen
      · exact absurd (by simp) hlen
      · exact absurd (by simp) hlen
      · exact absurd (by simp) hlen
      · simp only [List.length_cons] at hf hg
        obtain ⟨g', rfl⟩ : ∃ g', g = g' + 1 := by
          cases g with
          | zero => omega
          | succ g' => exact ⟨g', rfl⟩
        rw [readBlocksFuel_cons, readBlocksFuel_cons]
        by_cases hreq : payloadWordsRequested
            (parseBlockHeader w0 w1 w2 w3 w4 w5 w6 w7) ≤ rest.length
        · rw [if_pos hreq, if_pos hreq]
          have hdrop := List.length_drop
            (payloadWordsRequested (parseBlockHeader w0 w1 w2 w3 w4 w5 w6 w7)) rest
          rw [ih g' _ (by omega) (by omega)]
        · rw [if_neg hreq, if_neg hreq]

lemma readBlocksFuel_eq_readBlocks (f : Nat) (ws : List Nat)
    (h : ws.length ≤ f) : readBlocksFuel f ws = readBlocks ws :=
  readBlocksFuel_congr f ws.length ws h le_rfl

/-- Unfolding one iteration of `readBlocks` at a stream that begins with a
full 8-word block header. -/
lemma readBlocks_cons (w0 w1 w2 w3 w4 w5 w6 w7 : Nat) (rest : List Nat) :
    readBlocks (w0 :: w1 :: w2 :: w3 :: w4 :: w5 :: w6 :: w7 :: rest)
      = if payloadWordsRequested (parseBlockHeader w0 w1 w2 w3 w4 w5 w6 w7)
            ≤ rest.length then
          { header := parseBlockHeader w0 w1 w2 w3 w4 w5 w6 w7,
            payload := (rest.take (payloadWordsRequested
                (parseBlockHeader w0 w1 w2 w3 w4 w5 w6 w7))).map toSigned16 }
            :: readBlocks (rest.drop (payloadWordsRequested
                (parseBlockHeader w0 w1 w2 w3 w4 w5 w6 w7)))
        else
          [{ header := parseBlockHeader w0 w1 w2 w3 w4 w5 w6 w7,
             payload := (rest.take (payloadWordsRequested
                 (parseBlockHeader w0 w1 w2 w3 w4 w5 w6 w7))).map toSigned16 }] := by
  have hkey : readBlocks (w0 :: w1 :: w2 :: w3 :: w4 :: w5 :: w6 :: w7 :: rest)
      = readBlocksFuel (rest.length + 7 + 1)
          (w0 :: w1 :: w2 :: w3 :: w4 :: w5 :: w6 :: w7 :: rest) := by
    unfold readBlocks
    congr 1
  rw [hkey, readBlocksFuel_cons]
  by_cases hreq : payloadWordsRequested
      (parseBlockHeader w0 w1 w2 w3 w4 w5 w6 w7) ≤ rest.length
  · rw [if_pos hreq, if_pos hreq]
    have hdrop := List.length_drop
      (payloadWordsRequested (parseBlockHeader w0 w1 w2 w3 w4 w5 w6 w7)) rest
    rw [readBlocksFuel_eq_readBlocks _ _ (by omega)]
  · rw [if_neg hreq, if_neg hreq]

lemma Int.toNat_mul_of_nonneg {a b : Int} (ha : 0 ≤ a) (hb : 0 ≤ b) :
    (a * b).toNat = a.toNat * b.toNat := by
  lift a to Nat using ha
  lift b to Nat using hb
  norm_cast

lemma payloadWordsRequested_eq (db : PL_DataBlockHeader)
    (hNW : 0 ≤ db.numberOfWaveforms) (hNWW : 0 ≤ db.numberOfWordsInWaveform) :
    payloadWordsRequested db
      = db.numberOfWaveforms.toNat * db.numberOfWordsInWaveform.toNat := by
  unfold payloadWordsRequested
  by_cases h : 0 < db.numberOfWaveforms
  · rw [if_pos h, Int.toNat_mul_of_nonneg hNW hNWW]
  · rw [if_neg h]
    have : db.numberOfWaveforms = 0 := le_antisymm (not_lt.mp h) hNW
    rw [this]
    simp

/-- Claim C5: after a block header declaring nonnegative counts, the loop
consumes exactly `NumberOfWaveforms * NumberOfWordsInWaveform` 16-bit
samples before reading the next header (given that many samples remain);
in particular, when the waveform count is 0 no payload word is consumed and
the cursor advances only by the 8-word header. -/
theorem stream_self_delimiting (w0 w1 w2 w3 w4 w5 w6 w7 : Nat)
    (rest : List Nat)
    (hNW : 0 ≤ (parseBlockHeader w0 w1 w2 w3 w4 w5 w6 w7).numberOfWaveforms)
    (hNWW : 0 ≤ (parseBlockHeader w0 w1 w2 w3 w4 w5 w6 w7).numberOfWordsInWaveform)
    (havail : (parseBlockHeader w0 w1 w2 w3 w4 w5 w6 w7).numberOfWaveforms.toNat
        * (parseBlockHeader w0 w1 w2 w3 w4 w5 w6 w7).numberOfWordsInWaveform.toNat
        ≤ rest.length) :
    readBlocks (w0 :: w1 :: w2 :: w3 :: w4 :: w5 :: w6 :: w7 :: rest)
        = { header := parseBlockHeader w0 w1 w2 w3 w4 w5 w6 w7,
            payload := (rest.take
                ((parseBlockHeader w0 w1 w2 w3 w4 w5 w6 w7).numberOfWaveforms.toNat
                  * (parseBlockHeader w0 w1 w2 w3 w4 w5 w6 w7).numberOfWordsInWaveform.toNat)).map
                toSigned16 }
          :: readBlocks (rest.drop
                ((parseBlockHeader w0 w1 w2 w3 w4 w5 w6 w7).numberOfWaveforms.toNat
                  * (parseBlockHeader w0 w1 w2 w3 w4 w5 w6 w7).numberOfWordsInWaveform.toNat))
    ∧ ((parseBlockHeader w0 w1 w2 w3 w4 w5 w6 w7).numberOfWaveforms = 0 →
        readBlocks (w0 :: w1 :: w2 :: w3 :: w4 :: w5 :: w6 :: w7 :: rest)
          = { header := parseBlockHeader w0 w1 w2 w3 w4 w5 w6 w7, payload := [] }
            :: readBlocks rest) := by
  have hpw := payloadWordsRequested_eq (parseBlockHeader w0 w1 w2 w3 w4 w5 w6 w7)
    hNW hNWW
  have hmain : readBlocks (w0 :: w1 :: w2 :: w3 :: w4 :: w5 :: w6 :: w7 :: rest)
      = { header := parseBlockHeader w0 w1 w2 w3 w4 w5 w6 w7,
          payload := (rest.take
              ((parseBlockHeader w0 w1 w2 w3 w4 w5 w6 w7).numberOfWaveforms.toNat
                * (parseBlockHeader w0 w1 w2 w3 w4 w5 w6 w7).numberOfWordsInWaveform.toNat)).map
              toSigned16 }
        :: readBlocks (rest.drop
              ((parseBlockHeader w0 w1 w2 w3 w4 w5 w6 w7).numberOfWaveforms.toNat
                * (parseBlockHeader w0 w1 w2 w3 w4 w5 w6 w7).numberOfWordsInWaveform.toNat)) := by
    rw [readBlocks_cons, hpw, if_pos havail]
  refine ⟨hmain, fun hzero => ?_⟩
  rw [hmain]
  rw [hzero]
  simp

/-- Claim C5, witness: a spike block whose header declares one waveform of
two words, followed by a zero-waveform block; the cursor lands exactly on
the next header, and the zero-waveform case advances by the header alone. -/
theorem stream_self_delimiting_witness :
    readBlocks [1, 0, 5, 0, 1, 1, 1, 2, 7, 8]
        = { header := parseBlockHeader 1 0 5 0 1 1 1 2,
            payload := (([7, 8] : List Nat).take
                ((parseBlockHeader 1 0 5 0 1 1 1 2).numberOfWaveforms.toNat
                  * (parseBlockHeader 1 0 5 0 1 1 1 2).numberOfWordsInWaveform.toNat)).map
                toSigned16 }
          :: readBlocks (([7, 8] : List Nat).drop
                ((parseBlockHeader 1 0 5 0 1 1 1 2).numberOfWaveforms.toNat
                  * (parseBlockHeader 1 0 5 0 1 1 1 2).numberOfWordsInWaveform.toNat))
    ∧ ((parseBlockHeader 1 0 5 0 1 1 1 2).numberOfWaveforms = 0 →
        readBlocks [1, 0, 5, 0, 1, 1, 1, 2, 7, 8]
          = { header := parseBlockHeader 1 0 5 0 1 1 1 2, payload := [] }
            :: readBlocks [7, 8]) :=
  stream_self_delimiting 1 0 5 0 1 1 1 2 [7, 8] (by decide) (by decide) (by decide)

/-- A synthetic on-stream block: 8 header words plus the payload words that
follow them on the stream. -/
structure SynthBlock where
  h0 : Nat
  h1 : Nat
  h2 : Nat
  h3 : Nat
  h4 : Nat
  h5 : Nat
  h6 : Nat
  h7 : Nat
  payload : List Nat

/-- The parsed header of a synthetic block. -/
def SynthBlock.header (b : SynthBlock) : PL_DataBlockHeader :=
  parseBlockHeader b.h0 b.h1 b.h2 b.h3 b.h4 b.h5 b.h6 b.h7

/-- A synthetic block is complete when its on-stream payload has exactly the
length its own header declares. -/
def SynthBlock.complete (b : SynthBlock) : Prop :=
  b.payload.length = payloadWordsRequested b.header

/-- The word stream of a synthetic block. -/
def SynthBlock.encode (b : SynthBlock) : List Nat :=
  b.h0 :: b.h1 :: b.h2 :: b.h3 :: b.h4 :: b.h5 :: b.h6 :: b.h7 :: b.payload

/-- The raw record the reading loop produces for a complete synthetic block. -/
def SynthBlock.record (b : SynthBlock) : RawBlock :=
  { header := b.header, payload := b.payload.map toSigned16 }

/-- The word stream of a sequence of synthetic blocks. -/
def encodeStream (bs : List SynthBlock) : List Nat :=
  (bs.map SynthBlock.encode).flatten

lemma encodeStream_nil : encodeStream [] = [] := rfl

lemma encodeStream_cons (b : SynthBlock) (bs : List SynthBlock) :
    encodeStream (b :: bs) = SynthBlock.encode b ++ encodeStream bs := by
  simp [encodeStream]

/-- Scanning complete blocks followed by any words yields each block's
record and then continues on the remaining words. -/
lemma readBlocks_encodeStream (bs : List SynthBlock) (tailWs : List Nat)
    (hc : ∀ b ∈ bs, b.complete) :
    readBlocks (encodeStream bs ++ tailWs)
      = bs.map SynthBlock.record ++ readBlocks tailWs := by
  induction bs with
  | nil => simp [encodeStream_nil]
  | cons b bs ih =>
    have hb : b.complete := hc b (List.mem_cons_self b bs)
    have hbs : ∀ x ∈ bs, x.complete := fun x hx => hc x (List.mem_cons_of_mem b hx)
    rw [encodeStream_cons, List.append_assoc]
    show readBlocks (b.h0 :: b.h1 :: b.h2 :: b.h3 :: b.h4 :: b.h5 :: b.h6 :: b.h7
        :: (b.payload ++ (encodeStream bs ++ tailWs))) = _
    rw [readBlocks_cons]
    have hreq : b.payload.length = payloadWordsRequested
        (parseBlockHeader b.h0 b.h1 b.h2 b.h3 b.h4 b.h5 b.h6 b.h7) := hb
    rw [← hreq]
    rw [if_pos (by simp [List.length_append])]
    rw [List.take_left, List.drop_left, ih hbs]
    simp [SynthBlock.record, SynthBlock.header]

/-- Claim C3, counterexample: a stream holding one complete spike block and
then a trailing block whose header declares 4 payload words while only 1
word remains. The scan yields the complete record and then also yields a
record for the truncated block carrying the single word that was present —
a partial record, where the claim requires none — and no `TruncatedBlock`
signal exists anywhere in the code. -/
theorem truncated_block_counterexample :
    readBlocks [1, 0, 5, 0, 1, 1, 1, 2, 7, 8, 5, 0, 9, 0, 0, 0, 1, 4, 3]
        = [{ header := parseBlockHeader 1 0 5 0 1 1 1 2, payload := [7, 8] },
           { header := parseBlockHeader 5 0 9 0 0 0 1 4, payload := [3] }]
    ∧ payloadWordsRequested (parseBlockHeader 5 0 9 0 0 0 1 4) = 4 := by
  decide

/-- Claim C3, amended: when the final block header declares a payload longer
than the bytes remaining, a scan yields every record that was completely
present before that block — those records are unaffected — and then also
yields a record for the truncated block whose payload is only the words
actually remaining (the unchecked payload `fread` leaves the record in the
output); no truncation signal is raised. -/
theorem truncated_block_scan (bs : List SynthBlock)
    (t0 t1 t2 t3 t4 t5 t6 t7 : Nat) (trest : List Nat)
    (hc : ∀ b ∈ bs, b.complete)
    (htrunc : trest.length
        < payloadWordsRequested (parseBlockHeader t0 t1 t2 t3 t4 t5 t6 t7)) :
    readBlocks (encodeStream bs
        ++ (t0 :: t1 :: t2 :: t3 :: t4 :: t5 :: t6 :: t7 :: trest))
      = bs.map SynthBlock.record
        ++ [{ header := parseBlockHeader t0 t1 t2 t3 t4 t5 t6 t7,
              payload := trest.map toSigned16 }] := by
  rw [readBlocks_encodeStream bs _ hc, readBlocks_cons,
    if_neg (not_le.mpr htrunc),
    List.take_of_length_le (le_of_lt htrunc)]

/-- Claim C3 (amended), witness: the concrete truncated stream of the
counterexample, produced through the general scan theorem. -/
theorem truncated_block_scan_witness :
    readBlocks (encodeStream [⟨1, 0, 5, 0, 1, 1, 1, 2, [7, 8]⟩]
        ++ (5 :: 0 :: 9 :: 0 :: 0 :: 0 :: 1 :: 4 :: [3]))
      = ([⟨1, 0, 5, 0, 1, 1, 1, 2, [7, 8]⟩] : List SynthBlock).map SynthBlock.record
        ++ [{ header := parseBlockHeader 5 0 9 0 0 0 1 4,
              payload := ([3] : List Nat).map toSigned16 }] :=
  truncated_block_scan [⟨1, 0, 5, 0, 1, 1, 1, 2, [7, 8]⟩] 5 0 9 0 0 0 1 4 [3]
    (by
      intro b hb
      simp only [List.mem_singleton] at hb
      subst hb
      unfold SynthBlock.complete
      decide)
    (by decide)

/-- `int ticks_in_adcycle = fh.ADFrequency/adfreq;` (plxread.cpp line 324):
C `int` division truncates toward zero, i.e. `Int.tdiv`. -/
def ticks_in_adcycle (adFrequency adfreq : Int) : Int :=
  Int.tdiv adFrequency adfreq

/-- `double v = (buf[i]*5./2048.)/(double)gain;` (line 344). Every double
the theorems below evaluate is an exact dyadic rational divided by `gain`,
so the computation is modelled over `ℚ`, where those operations are exact. -/
def adVoltage (raw gain : Int) : ℚ :=
  (raw : ℚ) * 5 / 2048 / (gain : ℚ)

/-- Modelled from the spec: the spike-waveform voltage conversion
`voltage = (a_d_value*3./2048.)/gain`, stated in the in-file format
documentation (plxread.cpp section 2C.1); no executable code in the sample
computes spike voltages (samples 1-2 print raw waveform values), so the
definition follows that documented formula, which is also the spec's. -/
def spikeVoltage (raw gain : Int) : ℚ :=
  (raw : ℚ) * 3 / 2048 / (gain : ℚ)

/-- The `(timestamp, voltage)` pairs sample 4 emits for one matching A/D
block: `for (i = 0; i < db.NumberOfWordsInWaveform; i++) { ts = db.TimeStamp
+ i*ticks_in_adcycle; double v = (buf[i]*5./2048.)/(double)gain; ... }`
(lines 341-348). Positions of `buf` beyond the words actually read hold
stale bytes in the C; they are modelled as 0 and no theorem depends on
them. -/
def contPairsOfBlock (rb : RawBlock) (ticks gain : Int) : List (Int × ℚ) :=
  (List.range rb.header.numberOfWordsInWaveform.toNat).map fun (i : Nat) =>
    (rb.header.timeStamp + (i : Int) * ticks, adVoltage (rb.payload.getD i 0) gain)

/-- Sample 4's extraction pass (the spec's `selectContinuous`): scan the
stream and, for each block with `db.Type == PL_ADDataType && db.Channel ==
channel_to_extract`, emit that block's pairs (lines 328-352). Argument
order follows the spec: stream, A/D channel, gain, channel frequency,
master frequency. -/
def selectContinuous (ws : List Nat) (ch gain adfreq adFrequency : Int) :
    List (Int × ℚ) :=
  (readBlocks ws).flatMap fun rb =>
    if rb.header.blockType = PL_ADDataType ∧ rb.header.channel = ch then
      contPairsOfBlock rb (ticks_in_adcycle adFrequency adfreq) gain
    else []

/-- An A/D block (type 5, channel 0) at timestamp 1000 declaring two
waveforms of three words each, with six payload words present. -/
def adTwoWaveStream : List Nat :=
  [5, 0, 1000, 0, 0, 0, 2, 3, 4096, 0, 61440, 1, 2, 3]

/-- The spec's section-8 example A/D block: type 5, channel 0, timestamp
1000, one waveform of three words, samples `[4096, 0, -4096]` (the word
61440 is the two's complement of -4096). -/
def adExampleStream : List Nat :=
  [5, 0, 1000, 0, 0, 0, 1, 3, 4096, 0, 61440]

/-- Claim C4, counterexample: on a matching A/D block declaring
`NumberOfWaveforms = 2` and `NumberOfWordsInWaveform = 3` (all six payload
words present), the extraction emits 3 pairs, not the
`waveformCount x wordsPerWaveform = 6` the claim requires: the loop
iterates `NumberOfWordsInWaveform` only, and nothing flags the anomalous
waveform count. -/
theorem selectContinuous_two_waveforms_counterexample :
    (readBlocks adTwoWaveStream).map (fun rb =>
        (rb.header.numberOfWaveforms, rb.header.numberOfWordsInWaveform))
      = [(2, 3)]
    ∧ (selectContinuous adTwoWaveStream 0 1 20000 40000).length = 3
    ∧ (selectContinuous adTwoWaveStream 0 1 20000 40000).length ≠ 2 * 3 := by
  decide

/-- Claim C4, amended: for every matching complete A/D block,
`selectContinuous` emits exactly `NumberOfWordsInWaveform` pairs — the loop
implicitly assumes one waveform and flags no anomaly — which equals
`waveformCount x wordsPerWaveform` only in the expected case
`NumberOfWaveforms = 1`. -/
theorem selectContinuous_emits_wordsPerWaveform (b : SynthBlock)
    (ch gain adfreq adFrequency : Int) (hc : b.complete)
    (htype : b.header.blockType = PL_ADDataType)
    (hch : b.header.channel = ch) :
    (selectContinuous (SynthBlock.encode b) ch gain adfreq adFrequency).length
        = b.header.numberOfWordsInWaveform.toNat
    ∧ (b.header.numberOfWaveforms = 1 →
        (selectContinuous (SynthBlock.encode b) ch gain adfreq adFrequency).length
          = (b.header.numberOfWaveforms * b.header.numberOfWordsInWaveform).toNat) := by
  have hrb : readBlocks (SynthBlock.encode b) = [b.record] := by
    have h := readBlocks_encodeStream [b] []
      (by
        intro x hx
        simp only [List.mem_singleton] at hx
        subst hx
        exact hc)
    simpa [encodeStream, SynthBlock.encode] using h
  have hlen : (selectContinuous (SynthBlock.encode b) ch gain adfreq adFrequency).length
      = b.header.numberOfWordsInWaveform.toNat := by
    unfold selectContinuous
    rw [hrb]
    simp [SynthBlock.record, htype, hch, contPairsOfBlock]
  refine ⟨hlen, fun h1 => ?_⟩
  rw [hlen, h1, one_mul]

/-- Claim C4 (amended), witness: the section-8 single-waveform block yields
exactly its three declared words. -/
theorem selectContinuous_emits_wordsPerWaveform_witness :
    (selectContinuous (SynthBlock.encode ⟨5, 0, 1000, 0, 0, 0, 1, 3, [4096, 0, 61440]⟩)
        0 1 20000 40000).length
      = (SynthBlock.header ⟨5, 0, 1000, 0, 0, 0, 1, 3, [4096, 0, 61440]⟩).numberOfWordsInWaveform.toNat
    ∧ ((SynthBlock.header ⟨5, 0, 1000, 0, 0, 0, 1, 3, [4096, 0, 61440]⟩).numberOfWaveforms = 1 →
        (selectContinuous (SynthBlock.encode ⟨5, 0, 1000, 0, 0, 0, 1, 3, [4096, 0, 61440]⟩)
            0 1 20000 40000).length
          = ((SynthBlock.header ⟨5, 0, 1000, 0, 0, 0, 1, 3, [4096, 0, 61440]⟩).numberOfWaveforms
              * (SynthBlock.header ⟨5, 0, 1000, 0, 0, 0, 1, 3, [4096, 0, 61440]⟩).numberOfWordsInWaveform).toNat) :=
  selectContinuous_emits_wordsPerWaveform ⟨5, 0, 1000, 0, 0, 0, 1, 3, [4096, 0, 61440]⟩
    0 1 20000 40000
    (by unfold SynthBlock.complete; decide) (by decide) (by decide)

/-- Claim C6: for an analog block and nonzero channel frequency, the i-th
emitted timestamp is `db.TimeStamp + i * (ADFrequency / adfreq)` with
truncating integer division, for every index below the emitted sample
count; with master frequency 40000 and channel frequency 20000 the tick
increment is 2, and the section-8 example block at timestamp 1000 yields
timestamps `[1000, 1002, 1004]`. -/
theorem contPairs_timestamps_extrapolated (rb : RawBlock)
    (gain adFrequency adfreq : Int) (_hfreq : adfreq ≠ 0) (i : Nat)
    (hi : i < rb.header.numberOfWordsInWaveform.toNat) :
    ((contPairsOfBlock rb (ticks_in_adcycle adFrequency adfreq) gain)[i]?).map Prod.fst
        = some (rb.header.timeStamp + (i : Int) * ticks_in_adcycle adFrequency adfreq)
    ∧ ticks_in_adcycle 40000 20000 = 2
    ∧ (selectContinuous adExampleStream 0 1 20000 40000).map Prod.fst
        = [1000, 1002, 1004] := by
  refine ⟨?_, by decide, by decide⟩
  simp [contPairsOfBlock, List.getElem?_map, List.getElem?_range, hi]

/-- Claim C6, witness: index 2 of the section-8 example block. -/
theorem contPairs_timestamps_extrapolated_witness :
    ((contPairsOfBlock
        { header := parseBlockHeader 5 0 1000 0 0 0 1 3,
          payload := [4096, 0, -4096] }
        (ticks_in_adcycle 40000 20000) 1)[2]?).map Prod.fst
      = some ((parseBlockHeader 5 0 1000 0 0 0 1 3).timeStamp
          + ((2 : Nat) : Int) * ticks_in_adcycle 40000 20000) :=
  (contPairs_timestamps_extrapolated
    { header := parseBlockHeader 5 0 1000 0 0 0 1 3, payload := [4096, 0, -4096] }
    1 40000 20000 (by decide) 2 (by decide)).1

/-- Claim C7: the A/D voltage conversion is `raw * 5.0 / 2048.0 / gain`
(characterised denominator-free for nonzero gain), and the section-8 raw
samples `[4096, 0, -4096]` at gain 1 convert to `[10, 0, -10]` volts. -/
theorem adVoltage_formula :
    (∀ raw gain : Int, gain ≠ 0 →
        adVoltage raw gain = (raw : ℚ) * 5 / 2048 / (gain : ℚ)
        ∧ (2048 : ℚ) * (gain : ℚ) * adVoltage raw gain = 5 * (raw : ℚ))
    ∧ ([4096, 0, -4096] : List Int).map (fun r => adVoltage r 1)
        = [10, 0, -10] := by
  refine ⟨fun raw gain hg => ⟨rfl, ?_⟩, by norm_num [adVoltage]⟩
  have hg' : (gain : ℚ) ≠ 0 := Int.cast_ne_zero.mpr hg
  unfold adVoltage
  field_simp
  ring

/-- Claim C7, witness: raw 3 at gain 2. -/
theorem adVoltage_formula_witness :
    adVoltage 3 2 = ((3 : Int) : ℚ) * 5 / 2048 / ((2 : Int) : ℚ)
    ∧ (2048 : ℚ) * ((2 : Int) : ℚ) * adVoltage 3 2 = 5 * ((3 : Int) : ℚ) :=
  adVoltage_formula.1 3 2 (by decide)

/-- Claim C8: the spike voltage conversion is `raw * 3.0 / 2048.0 / gain`
(characterised denominator-free for nonzero gain; gain 0 is a caller
configuration error, nothing in the formula guards it), and
`spikeVoltage 10 2 = 0.00732421875`. -/
theorem spikeVoltage_formula :
    (∀ raw gain : Int, gain ≠ 0 →
        spikeVoltage raw gain = (raw : ℚ) * 3 / 2048 / (gain : ℚ)
        ∧ (2048 : ℚ) * (gain : ℚ) * spikeVoltage raw gain = 3 * (raw : ℚ))
    ∧ spikeVoltage 10 2 = 0.00732421875 := by
  refine ⟨fun raw gain hg => ⟨rfl, ?_⟩, by norm_num [spikeVoltage]⟩
  have hg' : (gain : ℚ) ≠ 0 := Int.cast_ne_zero.mpr hg
  unfold spikeVoltage
  field_simp
  ring

/-- Claim C8, witness: raw 10 at gain 2. -/
theorem spikeVoltage_formula_witness :
    spikeVoltage 10 2 = ((10 : Int) : ℚ) * 3 / 2048 / ((2 : Int) : ℚ)
    ∧ (2048 : ℚ) * ((2 : Int) : ℚ) * spikeVoltage 10 2 = 3 * ((10 : Int) : ℚ) :=
  spikeVoltage_formula.1 10 2 (by decide)

/-- A decoded event record as the spec's RecordDecoder produces it. -/
structure EventRecord where
  timestamp : Int
  channel : Int
  unit : Int
  strobedValue : Option Int
deriving Repr, DecidableEq

/-- Modelled from the spec: the RecordDecoder's event classification (spec
section 4.4 and section 8), matching the in-file format documentation 2C.2
("if Channel = PL_StrobedExtChannel (257), unit is the strobed value,
otherwise, Unit is 0"); no executable decoder exists in the sample (sample 3
prints event timestamps only). -/
def classifyEvent (db : PL_DataBlockHeader) : EventRecord :=
  { timestamp := db.timeStamp
    channel := db.channel
    unit := if db.channel = PL_StrobedExtChannel then db.unit else 0
    strobedValue := if db.channel = PL_StrobedExtChannel then some db.unit else none }

/-- Claim C9: an event on the reserved strobed channel (257) carries its raw
unit field as the strobed value; an event on any other channel carries no
strobed value and records unit 0; in particular raw unit 42 on channel 257
yields strobed value `some 42`. -/
theorem classifyEvent_strobed (db : PL_DataBlockHeader) :
    (db.channel = PL_StrobedExtChannel →
        (classifyEvent db).strobedValue = some db.unit)
    ∧ (db.channel ≠ PL_StrobedExtChannel →
        (classifyEvent db).strobedValue = none ∧ (classifyEvent db).unit = 0)
    ∧ (classifyEvent
        { blockType := 4, upperByteOf5ByteTimestamp := 0, timeStamp := 0,
          channel := 257, unit := 42, numberOfWaveforms := 0,
          numberOfWordsInWaveform := 0 }).strobedValue = some 42 := by
  refine ⟨fun h => ?_, fun h => ⟨?_, ?_⟩, by decide⟩
  · simp [classifyEvent, h]
  · simp [classifyEvent, h]
  · simp [classifyEvent, h]

/-- Claim C9, witness: a strobed event (channel 257, unit 7) and a plain
event (channel 3, unit 7). -/
theorem classifyEvent_strobed_witness :
    (classifyEvent ⟨4, 0, 5, 257, 7, 0, 0⟩).strobedValue = some 7
    ∧ ((classifyEvent ⟨4, 0, 5, 3, 7, 0, 0⟩).strobedValue = none
        ∧ (classifyEvent ⟨4, 0, 5, 3, 7, 0, 0⟩).unit = 0) :=
  ⟨(classifyEvent_strobed ⟨4, 0, 5, 257, 7, 0, 0⟩).1 rfl,
    (classifyEvent_strobed ⟨4, 0, 5, 3, 7, 0, 0⟩).2.1 (by decide)⟩

/-- Claim C10: because `ticks_in_adcycle` truncates `ADFrequency / adfreq`,
a channel frequency strictly above a positive master frequency gives a tick
increment of 0, so every sample timestamp of such a block equals the
block's leading timestamp. -/
theorem ticks_truncation_freezes_timestamps (adFrequency adfreq : Int)
    (h1 : 0 < adFrequency) (h2 : adFrequency < adfreq) :
    ticks_in_adcycle adFrequency adfreq = 0
    ∧ ∀ (rb : RawBlock) (gain : Int) (p : Int × ℚ),
        p ∈ contPairsOfBlock rb (ticks_in_adcycle adFrequency adfreq) gain →
        p.1 = rb.header.timeStamp := by
  have h0 : ticks_in_adcycle adFrequency adfreq = 0 := by
    unfold ticks_in_adcycle
    obtain ⟨m, rfl⟩ := Int.eq_ofNat_of_zero_le h1.le
    obtain ⟨n, rfl⟩ := Int.eq_ofNat_of_zero_le (le_of_lt (lt_trans h1 h2))
    have hmn : m < n := by exact_mod_cast h2
    have hcast : ((m : Int)).tdiv ((n : Int)) = ((m / n : Nat) : Int) := rfl
    rw [hcast, Nat.div_eq_of_lt hmn]
    rfl
  refine ⟨h0, fun rb gain p hp => ?_⟩
  rw [h0] at hp
  simp only [contPairsOfBlock, List.mem_map, List.mem_range] at hp
  obtain ⟨i, _, rfl⟩ := hp
  simp

/-- Claim C10, witness: master frequency 40000 against channel frequency
44100. -/
theorem ticks_truncation_freezes_timestamps_witness :
    ticks_in_adcycle 40000 44100 = 0 :=
  (ticks_truncation_freezes_timestamps 40000 44100 (by decide) (by decide)).1

end Plx
